import Mathlib

/-!
Verification of the Talon→dotool chord translator in
`src/apps/sublime_key_logger.py`.

The translator is a pure function over strings.  We embed it shallowly:

* Python `str` values are Lean `String`s; all string operations are modelled
  on the underlying character list (`String.data`), which matches Python's
  code-point view of strings.
* The three static lookup tables (`MODIFIER_ALIASES`, `SYMBOL_KEY_MAP`,
  `KEY_NAME_MAP`) live in `keymap_dotool.py`, which is not among the
  sources; the embedding is therefore parameterised by a `KeyTables`
  record, and a concrete `specTables` instance is modelled from the spec's
  stated assumptions for the concrete examples.
* A Python exception escaping the translator is modelled by `none`:
  every function that can raise returns an `Option`.
* Unicode-sensitive Python predicates (`str.isdigit`, `str.isalpha`,
  `str.isupper`, `str.lower`, whitespace) are modelled on the fragment of
  Unicode relevant here: ASCII, plus the Latin-1 superscript digits for
  `str.isdigit` (which Python counts as digits although `int` rejects
  them).
-/

set_option autoImplicit false

/-- Pack a character list back into a string (Python strings are sequences
of code points, so this is the inverse of `String.data`). -/
def ofChars (cs : List Char) : String := ⟨cs⟩

/-- Model of Python `sep.join(parts)` for a non-empty separator. -/
def joinSepS (sep : String) : List String → String
  | [] => ""
  | [x] => x
  | x :: xs => x ++ sep ++ joinSepS sep xs

/-- Split a character list at every character satisfying `p`, keeping empty
groups, as Python `str.split(sep)` does for a one-character separator. -/
def splitOnC (p : Char → Bool) : List Char → List (List Char)
  | [] => [[]]
  | c :: cs =>
    if p c then [] :: splitOnC p cs
    else
      match splitOnC p cs with
      | [] => [[c]]
      | g :: gs => (c :: g) :: gs

/-- Model of Python `s.split(sep)` for a one-character separator `sep`. -/
def pySplit (sep : Char) (s : String) : List String :=
  (splitOnC (fun c => c = sep) s.data).map ofChars

/-- Model of Python `s.split()` (no argument): split on whitespace runs and
drop empty pieces. -/
def pySplitWhitespace (s : String) : List String :=
  ((splitOnC Char.isWhitespace s.data).filter (fun g => !g.isEmpty)).map ofChars

/-- Model of Python `s.strip()`: drop leading and trailing whitespace. -/
def pyStrip (s : String) : String :=
  ofChars (((s.data.dropWhile Char.isWhitespace).reverse.dropWhile Char.isWhitespace).reverse)

/-- Model of Python `s.lower()` on the ASCII fragment. -/
def pyLower (s : String) : String := ofChars (s.data.map Char.toLower)

/-- Model of Python `s.startswith(pre)`. -/
def pyStartsWith (pre s : String) : Bool := pre.data.isPrefixOf s.data

/-- Model of Python `c in s` for a one-character `c`. -/
def pyContains (s : String) (c : Char) : Bool := s.data.contains c

/-- Model of Python `s.rsplit(sep, 1)` unpacked into `(base, last)`, for a
one-character separator; callers guard on `sep in s`, in which case the
split is at the last occurrence of `sep`. -/
def pyRsplit1 (sep : Char) (s : String) : String × String :=
  match (splitOnC (fun c => c = sep) s.data).reverse with
  | [] => (s, "")
  | last :: rest => (joinSepS (ofChars [sep]) (rest.reverse.map ofChars), ofChars last)

/-- Model of the Python `str.isdigit` character class: true for Unicode
characters of Numeric_Type Digit or Decimal.  Modelled on the fragment of
ASCII decimal digits plus the Latin-1 superscript digits `¹ ² ³`
(U+00B9, U+00B2, U+00B3), which Python counts as digits even though they
are not decimal digits. -/
def pyCharIsDigit (c : Char) : Bool := c.isDigit || c = '¹' || c = '²' || c = '³'

/-- Model of Python `s.isdigit()`: non-empty and every character a digit. -/
def pyIsDigitStr (s : String) : Bool := !s.data.isEmpty && s.data.all pyCharIsDigit

/-- Numeric value of a decimal-digit character list, most significant
digit first. -/
def digitsToNat (cs : List Char) : Nat :=
  cs.foldl (fun a c => 10 * a + (c.toNat - 48)) 0

/-- Model of Python `int(s)` on the strings it can receive here (strings
that passed `str.isdigit`): it succeeds exactly on non-empty strings of
decimal digits and raises `ValueError` (modelled as `none`) otherwise,
e.g. on the superscript digit `²`. -/
def pyInt? (s : String) : Option Nat :=
  if !s.data.isEmpty && s.data.all Char.isDigit then some (digitsToNat s.data) else none

/-- The three static lookup tables imported from `keymap_dotool.py`
(Python dicts with string keys and values, modelled as first-match
association lists). -/
structure KeyTables where
  modifierAliases : List (String × String)
  symbolKeyMap : List (String × String)
  keyNameMap : List (String × String)

/-- Model of Python dict membership / indexing: first matching entry. -/
def dictGet? (m : List (String × String)) (k : String) : Option String :=
  match m with
  | [] => none
  | p :: ps => if p.1 = k then some p.2 else dictGet? ps k

/-- Modelled from the spec: the contents of `keymap_dotool.py` (missing
from the sources).  Holds exactly the entries the spec's examples assume —
modifier aliases `ctrl`, `shift`, `alt`, `super` mapping to themselves,
and the symbol `,` mapping to `comma`; every other key falls through the
tables unchanged. -/
def specTables : KeyTables :=
  { modifierAliases := [("ctrl", "ctrl"), ("shift", "shift"), ("alt", "alt"), ("super", "super")]
  , symbolKeyMap := [(",", "comma")]
  , keyNameMap := [] }

/-- Source lines 45–47: lower-case the key unless it carries a raw-keycode
prefix `x:` or `k:`, which keeps its case. -/
def normCase (key : String) : String :=
  if !pyStartsWith "x:" key && !pyStartsWith "k:" key then pyLower key else key

/-- Source lines 30–48, `_normalize_key_name`: normalize a Talon key name
to a dotool-compatible name. -/
def _normalize_key_name (t : KeyTables) (key : String) : String :=
  if key = "" then key
  else
    match dictGet? t.symbolKeyMap key with
    | some v => v
    | none =>
      if pyStartsWith "keypad_" key then "kp" ++ ofChars (key.data.drop 7)
      else
        let key1 := normCase key
        (dictGet? t.keyNameMap key1).getD key1

/-- Source lines 63–67: one iteration of the `_split_modifiers` loop over
the `-`-separated parts, carrying `(mods, key_parts)`. -/
def splitStep (t : KeyTables) (acc : List String × List String) (part : String) :
    List String × List String :=
  match acc.2, dictGet? t.modifierAliases part with
  | [], some m => (acc.1 ++ [m], acc.2)
  | _, _ => (acc.1, acc.2 ++ [part])

/-- Source lines 51–68, `_split_modifiers`: split a chord into modifiers
and the base key. -/
def _split_modifiers (t : KeyTables) (chord : String) : List String × String :=
  let r := (pySplit '-' chord).foldl (splitStep t) ([], [])
  (r.1, joinSepS "-" r.2)

/-- Source lines 71–84, `_build_chord`: build a dotool chord string from
modifiers and a key. -/
def _build_chord (mods : List String) (key : String) : String :=
  joinSepS "+" (if key = "" then mods else mods ++ [key])

/-- Source lines 87–100, `_mods_only_actions`: emit down/up actions for
modifier-only chords. -/
def _mods_only_actions (mods : List String) : List String :=
  if mods = [] then []
  else mods.map (fun m => "keydown " ++ m) ++ mods.reverse.map (fun m => "keyup " ++ m)

/-- Source lines 103–121, `_parse_suffix`: parse `:down`/`:up` or `:N`
suffixes for a chord.  `none` models the `ValueError` that `int` raises
when the suffix passes `str.isdigit` but is not made of decimal digits. -/
def _parse_suffix (chord : String) : Option (String × String × Nat) :=
  if !pyContains chord ':' then some (chord, "key", 1)
  else
    let bs := pyRsplit1 ':' chord
    if pyIsDigitStr bs.2 then
      match pyInt? bs.2 with
      | some n => some (bs.1, "key", max 1 n)
      | none => none
    else if bs.2 = "down" then some (bs.1, "keydown", 1)
    else if bs.2 = "up" then some (bs.1, "keyup", 1)
    else some (chord, "key", 1)

/-- Source lines 124–138, `_normalize_alpha_key`: lower-case a single
upper-case letter key and add an implicit `shift` modifier. -/
def _normalize_alpha_key (key : String) (mods : List String) : List String × String :=
  match key.data with
  | [c] =>
    if c.isAlpha && c.isUpper then
      if mods.contains "shift" then (mods, pyLower key)
      else (mods ++ ["shift"], pyLower key)
    else (mods, key)
  | _ => (mods, key)

/-- Source lines 154–157: the mods/key pipeline applied to the base chord
returned by `_parse_suffix` — modifier split, upper-case-letter
normalization, then key-name normalization. -/
def chordModsKey (t : KeyTables) (base : String) : List String × String :=
  let sm := _split_modifiers t base
  let ak := _normalize_alpha_key sm.2 sm.1
  (ak.1, _normalize_key_name t ak.2)

/-- Source lines 141–167, `_dotool_actions_for_chord`: convert a single
Talon chord to dotool actions. -/
def _dotool_actions_for_chord (t : KeyTables) (chord0 : String) : Option (List String) :=
  let chord := pyStrip chord0
  if chord = "" then some []
  else
    match _parse_suffix chord with
    | none => none
    | some (base, action, rep) =>
      let mk := chordModsKey t base
      if mk.2 = "" then some (_mods_only_actions mk.1)
      else
        let chordStr := _build_chord mk.1 mk.2
        if action ≠ "key" then some [action ++ " " ++ chordStr]
        else if rep ≤ 1 then some ["key " ++ chordStr]
        else some (List.replicate rep ("key " ++ chordStr))

/-- Source lines 179–183: the per-chord comprehension, evaluated left to
right; an exception in any chord aborts the whole translation. -/
def chordsActions (t : KeyTables) : List String → Option (List String)
  | [] => some []
  | c :: cs =>
    match _dotool_actions_for_chord t c with
    | none => none
    | some a =>
      match chordsActions t cs with
      | none => none
      | some r => some (a ++ r)

/-- Source lines 170–183, `_talon_key_to_dotool_actions`: convert a Talon
key spec into dotool actions. -/
def _talon_key_to_dotool_actions (t : KeyTables) (keySpec : String) : Option (List String) :=
  chordsActions t (pySplitWhitespace keySpec)

/-- Per-chord translation mapped over a chord list, all chords succeeding;
used to state that a spec translation is the ordered concatenation of
independent per-chord translations. -/
def mapOpt (f : String → Option (List String)) : List String → Option (List (List String))
  | [] => some []
  | x :: xs =>
    match f x with
    | none => none
    | some a =>
      match mapOpt f xs with
      | none => none
      | some r => some (a :: r)

/-- Ordered concatenation of a list of action lists. -/
def concatAll (ls : List (List String)) : List String := ls.foldr (· ++ ·) []

/-- Translation of a single `-`-part through the modifier alias table,
identity when the part is not an alias. -/
def aliasOf (t : KeyTables) (p : String) : String :=
  (dictGet? t.modifierAliases p).getD p

/-- Membership of a `-`-part in the modifier alias table. -/
def isAlias (t : KeyTables) (p : String) : Bool :=
  (dictGet? t.modifierAliases p).isSome

/-! ## Helper lemmas -/

/-- Once a non-modifier part has been seen, every further part is appended
to the key parts, aliases included. -/
theorem splitStep_foldl_stuck (t : KeyTables) :
    ∀ (parts : List String) (ks : List String) (m : List String), ks ≠ [] →
      parts.foldl (splitStep t) (m, ks) = (m, ks ++ parts) := by
  intro parts
  induction parts with
  | nil => intro ks m _; simp
  | cons q qs ih =>
    intro ks m hks
    have hstep : splitStep t (m, ks) q = (m, ks ++ [q]) := by
      cases ks with
      | nil => exact absurd rfl hks
      | cons k ks' => rfl
    rw [List.foldl_cons, hstep, ih (ks ++ [q]) m (by simp)]
    simp

/-- The `_split_modifiers` loop computes the maximal prefix of parts that
are modifier aliases (translated), and leaves the rest as key parts. -/
theorem splitStep_foldl (t : KeyTables) :
    ∀ (parts : List String) (m : List String),
      parts.foldl (splitStep t) (m, []) =
        (m ++ (parts.takeWhile (isAlias t)).map (aliasOf t),
         parts.dropWhile (isAlias t)) := by
  intro parts
  induction parts with
  | nil => intro m; simp
  | cons q qs ih =>
    intro m
    cases h : dictGet? t.modifierAliases q with
    | some v =>
      have hstep : splitStep t (m, []) q = (m ++ [v], []) := by
        simp [splitStep, h]
      have hq : isAlias t q = true := by simp [isAlias, h]
      rw [List.foldl_cons, hstep, ih (m ++ [v])]
      simp [List.takeWhile_cons, List.dropWhile_cons, hq, aliasOf, h]
    | none =>
      have hstep : splitStep t (m, []) q = (m, [q]) := by
        simp [splitStep, h]
      have hq : isAlias t q = false := by simp [isAlias, h]
      rw [List.foldl_cons, hstep, splitStep_foldl_stuck t qs [q] m (by simp)]
      simp [List.takeWhile_cons, List.dropWhile_cons, hq]

/-- The per-chord list comprehension concatenates the per-chord results in
order whenever every chord translates without an exception. -/
theorem chordsActions_concat (t : KeyTables) :
    ∀ (l : List String) (rs : List (List String)),
      mapOpt (_dotool_actions_for_chord t) l = some rs →
      chordsActions t l = some (concatAll rs) := by
  intro l
  induction l with
  | nil =>
    intro rs h
    simp only [mapOpt, Option.some.injEq] at h
    subst h
    rfl
  | cons c cs ih =>
    intro rs h
    simp only [mapOpt] at h
    cases h1 : _dotool_actions_for_chord t c with
    | none => rw [h1] at h; exact absurd h (by simp)
    | some a =>
      rw [h1] at h
      cases h2 : mapOpt (_dotool_actions_for_chord t) cs with
      | none => rw [h2] at h; exact absurd h (by simp)
      | some r =>
        rw [h2] at h
        simp only [Option.some.injEq] at h
        subst h
        simp only [chordsActions, h1, ih r h2]
        rfl

/-- Empty-string facts used to discharge trimming side conditions. -/
theorem pyContains_empty (ch : Char) : pyContains "" ch = false := rfl

/-- Parsing the empty chord yields the `key` verb. -/
theorem parse_suffix_empty : _parse_suffix "" = some ("", "key", 1) := rfl

/-- Suffix parse, no-colon case (source line 112–113). -/
theorem parse_nocolon (c : String) (h : pyContains c ':' = false) :
    _parse_suffix c = some (c, "key", 1) := by
  simp [_parse_suffix, h]

/-- Suffix parse, decimal-digits case (source lines 115–116). -/
theorem parse_digits (c base sfx : String)
    (h1 : pyContains c ':' = true)
    (h2 : pyRsplit1 ':' c = (base, sfx))
    (h3 : sfx.data ≠ [])
    (h4 : sfx.data.all Char.isDigit = true) :
    _parse_suffix c = some (base, "key", max 1 (digitsToNat sfx.data)) := by
  have hall : sfx.data.all pyCharIsDigit = true := by
    simp only [List.all_eq_true] at h4 ⊢
    intro a ha
    simp [pyCharIsDigit, h4 a ha]
  have hdig : pyIsDigitStr sfx = true := by
    simp [pyIsDigitStr, hall, h3]
  have hint : pyInt? sfx = some (digitsToNat sfx.data) := by
    simp [pyInt?, h3, h4]
  simp [_parse_suffix, h1, h2, hdig, hint]

/-- Suffix parse, `down` case (source lines 117–118). -/
theorem parse_down (c base : String)
    (h1 : pyContains c ':' = true)
    (h2 : pyRsplit1 ':' c = (base, "down")) :
    _parse_suffix c = some (base, "keydown", 1) := by
  simp [_parse_suffix, h1, h2, pyIsDigitStr, pyCharIsDigit]

/-- Suffix parse, `up` case (source lines 119–120). -/
theorem parse_up (c base : String)
    (h1 : pyContains c ':' = true)
    (h2 : pyRsplit1 ':' c = (base, "up")) :
    _parse_suffix c = some (base, "keyup", 1) := by
  simp [_parse_suffix, h1, h2, pyIsDigitStr, pyCharIsDigit]

/-- Suffix parse, invalid-suffix fallback (source line 121): the original
unsplit chord is reinterpreted with no suffix. -/
theorem parse_other (c base sfx : String)
    (h1 : pyContains c ':' = true)
    (h2 : pyRsplit1 ':' c = (base, sfx))
    (h3 : pyIsDigitStr sfx = false)
    (h4 : sfx ≠ "down")
    (h5 : sfx ≠ "up") :
    _parse_suffix c = some (c, "key", 1) := by
  simp [_parse_suffix, h1, h2, h3, h4, h5]

/-- Unfolding of the per-chord translation after a successful suffix
parse of the stripped chord. -/
theorem actions_unfold (t : KeyTables) (c base act : String) (rep : Nat)
    (hne : pyStrip c ≠ "")
    (hp : _parse_suffix (pyStrip c) = some (base, act, rep)) :
    _dotool_actions_for_chord t c =
      (if (chordModsKey t base).2 = "" then some (_mods_only_actions (chordModsKey t base).1)
       else if act ≠ "key" then
         some [act ++ " " ++ _build_chord (chordModsKey t base).1 (chordModsKey t base).2]
       else if rep ≤ 1 then
         some ["key " ++ _build_chord (chordModsKey t base).1 (chordModsKey t base).2]
       else
         some (List.replicate rep
           ("key " ++ _build_chord (chordModsKey t base).1 (chordModsKey t base).2))) := by
  simp only [_dotool_actions_for_chord, hne, hp, if_neg hne]
  rfl

/-! ## Claims -/

/-- C1, counterexample: with `ctrl` aliased to `ctrl`, `translate("ctrl:down")`
does not emit exactly one action — the empty-key check precedes the verb
check, so the `keydown` verb is discarded and a press/release pair
`["keydown ctrl", "keyup ctrl"]` is emitted although the chord string
`ctrl` is non-empty; likewise for `"ctrl:up"`. -/
theorem C1_counterexample :
    _talon_key_to_dotool_actions specTables "ctrl:down"
      = some ["keydown ctrl", "keyup ctrl"]
    ∧ _talon_key_to_dotool_actions specTables "ctrl:up"
      = some ["keydown ctrl", "keyup ctrl"]
    ∧ (["keydown ctrl", "keyup ctrl"] : List String) ≠ ["keydown ctrl"]
    ∧ (["keydown ctrl", "keyup ctrl"] : List String) ≠ ["keyup ctrl"] := by
  decide

/-- C1 (amended): for every chord whose suffix parses to verb `keydown` or
`keyup`, translation emits exactly one action `"<verb> <chord-string>"`
when the normalized key is non-empty; when the key is empty the verb is
discarded and the chord degrades to the modifier-only press/release pair
(nothing when there are also no modifiers). -/
theorem C1_down_up_amended (t : KeyTables) (c base act : String) (rep : Nat)
    (hp : _parse_suffix (pyStrip c) = some (base, act, rep))
    (ha : act = "keydown" ∨ act = "keyup") :
    ((chordModsKey t base).2 ≠ "" →
      _dotool_actions_for_chord t c =
        some [act ++ " " ++ _build_chord (chordModsKey t base).1 (chordModsKey t base).2])
    ∧ ((chordModsKey t base).2 = "" →
      _dotool_actions_for_chord t c = some (_mods_only_actions (chordModsKey t base).1)) := by
  have hne : pyStrip c ≠ "" := by
    intro h0
    rw [h0, parse_suffix_empty] at hp
    simp only [Option.some.injEq, Prod.mk.injEq] at hp
    rcases ha with h | h <;> rw [← hp.2.1] at h <;> exact absurd h (by decide)
  have hu := actions_unfold t c base act rep hne hp
  constructor
  · intro hk
    have hact : act ≠ "key" := by rcases ha with h | h <;> simp [h]
    rw [hu, if_neg hk, if_pos hact]
  · intro hk
    rw [hu, if_pos hk]

/-- C1, witness: a `:down` chord with a non-modifier key emits exactly one
`keydown` action. -/
theorem C1_down_up_witness :
    _dotool_actions_for_chord specTables "ctrl-x:down" = some ["keydown ctrl+x"] := by
  have h := (C1_down_up_amended specTables "ctrl-x:down" "ctrl-x" "keydown" 1 (by decide)
    (Or.inl rfl)).1 (by decide)
  exact h.trans (by decide)

/-- C2: the translator is not total.  On the chord `a:²` the suffix `²`
(U+00B2) passes Python's `str.isdigit`, but `int` accepts only decimal
digits and raises `ValueError`, which escapes the translator (modelled
by `none`). -/
theorem C2_raises_on_superscript_digit :
    _talon_key_to_dotool_actions specTables "a:²" = none
    ∧ pyIsDigitStr "²" = true
    ∧ pyInt? "²" = none := by
  decide

/-- C3: suffix parsing splits on the last `:`; an all-decimal-digit suffix
gives verb `key` with repeat `max 1 N`, `down`/`up` give the matching
verb with repeat 1, any other suffix falls back to the whole unsplit
chord with verb `key` and repeat 1, and a chord without `:` parses to
itself with verb `key` and repeat 1. -/
theorem C3_parse_suffix_cases (c : String) :
    (pyContains c ':' = false → _parse_suffix c = some (c, "key", 1))
    ∧ (∀ base sfx : String, pyContains c ':' = true → pyRsplit1 ':' c = (base, sfx) →
        ((sfx.data ≠ [] → sfx.data.all Char.isDigit = true →
            _parse_suffix c = some (base, "key", max 1 (digitsToNat sfx.data)))
        ∧ (sfx = "down" → _parse_suffix c = some (base, "keydown", 1))
        ∧ (sfx = "up" → _parse_suffix c = some (base, "keyup", 1))
        ∧ (pyIsDigitStr sfx = false → sfx ≠ "down" → sfx ≠ "up" →
            _parse_suffix c = some (c, "key", 1)))) := by
  refine ⟨fun h => parse_nocolon c h, fun base sfx h1 h2 => ⟨?_, ?_, ?_, ?_⟩⟩
  · intro h3 h4
    exact parse_digits c base sfx h1 h2 h3 h4
  · intro h
    subst h
    exact parse_down c base h1 h2
  · intro h
    subst h
    exact parse_up c base h1 h2
  · intro h3 h4 h5
    exact parse_other c base sfx h1 h2 h3 h4 h5

/-- C3, witness: the five suffix-parse cases at concrete chords. -/
theorem C3_parse_suffix_witness :
    _parse_suffix "esc:3" = some ("esc", "key", 3)
    ∧ _parse_suffix "ctrl:down" = some ("ctrl", "keydown", 1)
    ∧ _parse_suffix "pageup:up" = some ("pageup", "keyup", 1)
    ∧ _parse_suffix "esc:foo" = some ("esc:foo", "key", 1)
    ∧ _parse_suffix "esc" = some ("esc", "key", 1) := by
  refine ⟨?_, ?_, ?_, ?_, ?_⟩
  · exact (((C3_parse_suffix_cases "esc:3").2 "esc" "3" (by decide) (by decide)).1
      (by decide) (by decide)).trans (by decide)
  · exact ((C3_parse_suffix_cases "ctrl:down").2 "ctrl" "down" (by decide) (by decide)).2.1 rfl
  · exact ((C3_parse_suffix_cases "pageup:up").2 "pageup" "up" (by decide) (by decide)).2.2.1 rfl
  · exact ((C3_parse_suffix_cases "esc:foo").2 "esc" "foo" (by decide) (by decide)).2.2.2
      (by decide) (by decide) (by decide)
  · exact (C3_parse_suffix_cases "esc").1 (by decide)

/-- C4: a chord whose repeat suffix has numeric value 0 clamps to repeat 1
and, when the normalized key is non-empty, translates to exactly one
action. -/
theorem C4_zero_repeat_clamps (t : KeyTables) (c base sfx : String)
    (h1 : pyContains (pyStrip c) ':' = true)
    (h2 : pyRsplit1 ':' (pyStrip c) = (base, sfx))
    (h3 : sfx.data ≠ [])
    (h4 : sfx.data.all Char.isDigit = true)
    (h5 : digitsToNat sfx.data = 0)
    (h6 : (chordModsKey t base).2 ≠ "") :
    _dotool_actions_for_chord t c =
      some ["key " ++ _build_chord (chordModsKey t base).1 (chordModsKey t base).2] := by
  have hne : pyStrip c ≠ "" := by
    intro h0
    rw [h0] at h1
    exact absurd h1 (by decide)
  have hp : _parse_suffix (pyStrip c) = some (base, "key", max 1 (digitsToNat sfx.data)) :=
    parse_digits (pyStrip c) base sfx h1 h2 h3 h4
  rw [h5] at hp
  have hu := actions_unfold t c base "key" (max 1 0) hne hp
  rw [hu, if_neg h6, if_neg (by simp : ¬("key" ≠ "key")), if_pos (by decide : max 1 0 ≤ 1)]

/-- C4, witness: `a:0` clamps to a single `key a` action. -/
theorem C4_zero_repeat_witness :
    _dotool_actions_for_chord specTables "a:0" = some ["key a"] := by
  have h := C4_zero_repeat_clamps specTables "a:0" "a" "0" (by decide) (by decide)
    (by decide) (by decide) (by decide) (by decide)
  exact h.trans (by decide)

/-- C5: the modifier split takes as modifiers exactly the maximal
contiguous prefix of `-`-separated parts found in the alias table, each
translated through the table in order, and rejoins the remaining parts
with `-` into the key name (so an alias after the first non-modifier part
belongs to the key). -/
theorem C5_split_modifiers (t : KeyTables) (chord : String) :
    _split_modifiers t chord =
      (((pySplit '-' chord).takeWhile (isAlias t)).map (aliasOf t),
       joinSepS "-" ((pySplit '-' chord).dropWhile (isAlias t))) := by
  simp [_split_modifiers, splitStep_foldl t (pySplit '-' chord) []]

/-- C6: a key that is exactly one upper-case letter is lower-cased and the
implicit `shift` modifier is appended unless already present; in
particular `translate("ctrl-A") = ["key ctrl+shift+a"]`. -/
theorem C6_upper_shift :
    (∀ (mods : List String) (key : String) (ch : Char),
        key.data = [ch] → ch.isAlpha = true → ch.isUpper = true →
        _normalize_alpha_key key mods =
          (if mods.contains "shift" then mods else mods ++ ["shift"], pyLower key))
    ∧ _talon_key_to_dotool_actions specTables "ctrl-A" = some ["key ctrl+shift+a"] := by
  constructor
  · intro mods key ch hk ha hu
    simp only [_normalize_alpha_key, hk, ha, hu, Bool.and_self, if_true]
    by_cases h : "shift" ∈ mods <;> simp [h]
  · decide

/-- C6, witness: the single upper-case letter `B` with no modifiers gains
an implicit `shift` and is lower-cased. -/
theorem C6_upper_shift_witness : _normalize_alpha_key "B" [] = (["shift"], "b") := by
  have h := C6_upper_shift.1 [] "B" 'B' rfl (by decide) (by decide)
  exact h.trans (by decide)

/-- C7: a verb-`key` chord whose normalized key is empty but whose
modifier list is non-empty emits one `keydown` per modifier in order
followed by one `keyup` per modifier in reverse order, independently of
the parsed repeat count; in particular `translate("super:3")` yields a
single down/up pair. -/
theorem C7_pure_modifier_pair (t : KeyTables) (c base : String) (rep : Nat)
    (hne : pyStrip c ≠ "")
    (hp : _parse_suffix (pyStrip c) = some (base, "key", rep))
    (hk : (chordModsKey t base).2 = "")
    (hm : (chordModsKey t base).1 ≠ []) :
    _dotool_actions_for_chord t c =
      some ((chordModsKey t base).1.map (fun m => "keydown " ++ m)
        ++ (chordModsKey t base).1.reverse.map (fun m => "keyup " ++ m))
    ∧ _talon_key_to_dotool_actions specTables "super:3"
        = some ["keydown super", "keyup super"] := by
  constructor
  · have hu := actions_unfold t c base "key" rep hne hp
    rw [hu, if_pos hk]
    simp [_mods_only_actions, hm]
  · decide

/-- C7, witness: a two-modifier chord releases in reverse order. -/
theorem C7_pure_modifier_witness :
    _dotool_actions_for_chord specTables "ctrl-super"
      = some ["keydown ctrl", "keydown super", "keyup super", "keyup ctrl"] := by
  have h := (C7_pure_modifier_pair specTables "ctrl-super" "ctrl-super" 1 (by decide)
    (by decide) (by decide) (by decide)).1
  exact h.trans (by decide)

/-- C8: key normalization tries, in order, the exact-match symbol table,
the `keypad_` → `kp` prefix rewrite, and otherwise lower-cases the key
(unless it starts with `x:` or `k:`) and looks the result up in the
key-name table, falling back to the unchanged name. -/
theorem C8_normalize_order (t : KeyTables) (key : String) (hne : key ≠ "") :
    (∀ v, dictGet? t.symbolKeyMap key = some v → _normalize_key_name t key = v)
    ∧ (dictGet? t.symbolKeyMap key = none → pyStartsWith "keypad_" key = true →
        _normalize_key_name t key = "kp" ++ ofChars (key.data.drop 7))
    ∧ (dictGet? t.symbolKeyMap key = none → pyStartsWith "keypad_" key = false →
        _normalize_key_name t key
          = (dictGet? t.keyNameMap (normCase key)).getD (normCase key)) := by
  refine ⟨?_, ?_, ?_⟩
  · intro v hv
    simp [_normalize_key_name, hne, hv]
  · intro h0 h1
    simp [_normalize_key_name, hne, h0, h1]
  · intro h0 h1
    simp [_normalize_key_name, hne, h0, h1]

/-- C8, witness: the four normalization paths at concrete keys. -/
theorem C8_normalize_witness :
    _normalize_key_name specTables "," = "comma"
    ∧ _normalize_key_name specTables "keypad_5" = "kp5"
    ∧ _normalize_key_name specTables "F" = "f"
    ∧ _normalize_key_name specTables "x:AB" = "x:AB" := by
  refine ⟨?_, ?_, ?_, ?_⟩
  · exact (C8_normalize_order specTables "," (by decide)).1 "comma" (by decide)
  · exact ((C8_normalize_order specTables "keypad_5" (by decide)).2.1 (by decide)
      (by decide)).trans (by decide)
  · exact ((C8_normalize_order specTables "F" (by decide)).2.2 (by decide)
      (by decide)).trans (by decide)
  · exact ((C8_normalize_order specTables "x:AB" (by decide)).2.2 (by decide)
      (by decide)).trans (by decide)

/-- C9: the translation of a key spec is the ordered concatenation of the
independent per-chord translations of its whitespace-separated chords;
`translate("")` is `[]`, and `translate("ctrl-, ctrl-f")` concatenates
the two chords' results in order. -/
theorem C9_concat_per_chord :
    (∀ (t : KeyTables) (s : String) (rs : List (List String)),
        mapOpt (_dotool_actions_for_chord t) (pySplitWhitespace s) = some rs →
        _talon_key_to_dotool_actions t s = some (concatAll rs))
    ∧ (∀ t : KeyTables, _talon_key_to_dotool_actions t "" = some [])
    ∧ _talon_key_to_dotool_actions specTables "ctrl-, ctrl-f"
        = some ["key ctrl+comma", "key ctrl+f"] := by
  refine ⟨fun t s rs h => ?_, fun t => rfl, by decide⟩
  simpa [_talon_key_to_dotool_actions] using chordsActions_concat t (pySplitWhitespace s) rs h

/-- C9, witness: a two-chord spec is the concatenation of its per-chord
results. -/
theorem C9_concat_witness :
    _talon_key_to_dotool_actions specTables "ctrl-a esc"
      = some (concatAll [["key ctrl+a"], ["key esc"]]) :=
  C9_concat_per_chord.1 specTables "ctrl-a esc" [["key ctrl+a"], ["key esc"]] (by decide)

/-- C10: a chord `x:N` or `k:N` with an all-decimal-digit `N` has its colon
consumed by suffix parsing, so it translates as the single key `x`
(resp. `k`) repeated `max 1 N` times; the case-preserving `x:`/`k:`
pass-through in key normalization is never reached for such chords. -/
theorem C10_raw_keycode_suffix (t : KeyTables) (c b ds : String)
    (hb : b = "x" ∨ b = "k")
    (hstrip : pyStrip c = c)
    (h1 : pyContains c ':' = true)
    (h2 : pyRsplit1 ':' c = (b, ds))
    (h3 : ds.data ≠ [])
    (h4 : ds.data.all Char.isDigit = true)
    (h5 : dictGet? t.modifierAliases b = none)
    (h6 : _normalize_key_name t b ≠ "") :
    _dotool_actions_for_chord t c =
      some (List.replicate (max 1 (digitsToNat ds.data))
        ("key " ++ _normalize_key_name t b)) := by
  have hne : pyStrip c ≠ "" := by
    rw [hstrip]
    intro h0
    rw [h0] at h1
    exact absurd h1 (by decide)
  have hp : _parse_suffix (pyStrip c) = some (b, "key", max 1 (digitsToNat ds.data)) := by
    rw [hstrip]
    exact parse_digits c b ds h1 h2 h3 h4
  have hone : pySplit '-' b = [b] := by
    rcases hb with h | h <;> subst h <;> decide
  have hsplit : _split_modifiers t b = ([], b) := by
    simp [_split_modifiers, hone, splitStep, h5, joinSepS]
  have halpha : _normalize_alpha_key b [] = ([], b) := by
    rcases hb with h | h <;> subst h <;> decide
  have hck : chordModsKey t b = ([], _normalize_key_name t b) := by
    simp [chordModsKey, hsplit, halpha]
  have hu := actions_unfold t c b "key" (max 1 (digitsToNat ds.data)) hne hp
  rw [hck] at hu
  have hbuild : _build_chord [] (_normalize_key_name t b) = _normalize_key_name t b := by
    simp [_build_chord, h6, joinSepS]
  rw [hu, if_neg h6, if_neg (by simp : ¬("key" ≠ "key")), hbuild]
  by_cases hr : max 1 (digitsToNat ds.data) ≤ 1
  · have h1' : max 1 (digitsToNat ds.data) = 1 :=
      Nat.le_antisymm hr (Nat.le_max_left _ _)
    rw [if_pos hr, h1']
    rfl
  · rw [if_neg hr]

/-- C10, witness: `x:3` emits three `key x` actions and `k:0` clamps to a
single `key k`. -/
theorem C10_raw_keycode_witness :
    _dotool_actions_for_chord specTables "x:3" = some ["key x", "key x", "key x"]
    ∧ _dotool_actions_for_chord specTables "k:0" = some ["key k"] := by
  constructor
  · exact (C10_raw_keycode_suffix specTables "x:3" "x" "3" (Or.inl rfl) (by decide) (by decide)
      (by decide) (by decide) (by decide) (by decide) (by decide)).trans (by decide)
  · exact (C10_raw_keycode_suffix specTables "k:0" "k" "0" (Or.inr rfl) (by decide) (by decide)
      (by decide) (by decide) (by decide) (by decide) (by decide)).trans (by decide)
